import Mathlib

/-!
Verification of the tushare_plus client engine (src/tushare_plus/client.py).

The Python client is shallowly embedded: each relevant method is translated
into an executable Lean function over explicit state, with the network
transport replaced by an explicit oracle (a value or list of responses that
stands for what `urlopen` would have produced, attempt by attempt).  Machine
floats used for timestamps are modelled as rationals; Python exceptions are
modelled with `Except`.
-/

namespace TusharePlus

/-- One row of a response's `items` payload. -/
abbrev Row := List String

/-- The `data` payload of a successful response:
`{"fields": [...], "items": [...], "has_more": optional bool}`. -/
structure PageData where
  fields : List String
  items : List Row
  hasMore : Option Bool
deriving DecidableEq

/-- A pandas DataFrame, reduced to its column names and rows. -/
structure DataFrame where
  columns : List String
  rows : List Row
deriving DecidableEq

/-- The ValueError message raised by `TushareAPI.__init__` when no token is found. -/
def tokenErrMsg : String :=
  "Tushare token must be provided either as an argument or via TUSHARE_TOKEN environment variable."

/-- Python truthiness of an optional string (`None` and `""` are falsy). -/
def truthyStr : Option String → Bool
  | some s => !s.isEmpty
  | none => false

/-- Token resolution of `TushareAPI.__init__` (client.py lines 162-168):
`self.token = token if token else os.environ.get('TUSHARE_TOKEN')`, then
`if not self.token: raise ValueError(...)`. -/
def initToken (tokenArg envTok : Option String) : Except String String :=
  let t := if truthyStr tokenArg then tokenArg else envTok
  match t with
  | some s => if s.isEmpty then Except.error tokenErrMsg else Except.ok s
  | none => Except.error tokenErrMsg

/-- Cached limits for one endpoint, as held in `_api_info_cache`. -/
structure ApiInfo where
  limit_per_request : ℕ
  rate_limit : ℕ
deriving DecidableEq

/-- One row of the durable CSV store kept by `APILimitDetector`. -/
structure StoreRec where
  limit_per_request : ℕ
  rate_limit : ℕ
  last_updated : ℕ
deriving DecidableEq

/-- The mutable client state relevant to limit caching: the in-memory
`_api_info_cache` dict and the CSV file behind `APILimitDetector`,
both modelled as association lists (a dict has one entry per key;
`pd.read_csv` lookups take the first matching row). -/
structure ClientSt where
  infoCache : List (String × ApiInfo)
  store : List (String × StoreRec)
deriving DecidableEq

/-- First-match association lookup (dict access / `df[df['api_name'] == name]`). -/
def lookupA {α : Type} (l : List (String × α)) (k : String) : Option α :=
  (l.find? (fun p => decide (p.1 = k))).map Prod.snd

/-- `APILimitDetector.save_api_limits` (client.py lines 97-129): update the
row in place when the endpoint already has one, otherwise append a new row. -/
def save_api_limits (store : List (String × StoreRec)) (name : String)
    (lpr rl ts : ℕ) : List (String × StoreRec) :=
  if (store.find? (fun p => decide (p.1 = name))).isSome then
    store.map (fun p => if p.1 = name then (name, StoreRec.mk lpr rl ts) else p)
  else store ++ [(name, StoreRec.mk lpr rl ts)]

/-- `APILimitDetector.remove_api_limits` (client.py lines 131-147): a missing
or empty CSV leaves everything untouched; otherwise rows of other endpoints
are kept (in order) and the named endpoint's rows are dropped. -/
def remove_api_limits (store : List (String × StoreRec)) (name : String) :
    List (String × StoreRec) :=
  if store.isEmpty then store
  else if (store.find? (fun p => decide (p.1 = name))).isSome then
    store.filter (fun p => !decide (p.1 = name))
  else store

/-- `TushareAPI.clear_api_limits` (client.py lines 434-446): remove the CSV
row, then delete the in-memory cache entry when present. -/
def clear_api_limits (s : ClientSt) (name : String) : ClientSt :=
  ClientSt.mk (s.infoCache.filter (fun p => !decide (p.1 = name)))
    (remove_api_limits s.store name)

/-- The message of the exception raised for a non-zero application status
code: `f"Error {result['code']}: {result['msg']}"`. -/
def errorText (code : Int) (msg : String) : String :=
  "Error " ++ toString code ++ ": " ++ msg

/-- The transport-level outcome of the single probing request issued by
`_detect_request_limit`: either some exception was raised (transport error,
decode error), or a decoded response with its application status code,
message, items and optional `has_more` flag. -/
inductive ProbeOutcome where
  | raise (msg : String)
  | resp (code : Int) (msg : String) (items : List Row) (hasMore : Option Bool)
deriving DecidableEq

/-- Body of the `try:` block of `_detect_request_limit` (client.py lines
267-313), before the `except` handler is applied. -/
def detect_request_limit_try : ProbeOutcome → Except String ℕ
  | ProbeOutcome.raise m => Except.error m
  | ProbeOutcome.resp code msg items hasMore =>
      if code ≠ 0 then Except.error (errorText code msg)
      else
        let count := items.length
        match hasMore with
        | some b => if !b then Except.ok 0 else Except.ok count
        | none => if count % 1000 = 0 ∧ 0 < count then Except.ok count else Except.ok 0

/-- `TushareAPI._detect_request_limit` (client.py lines 257-317): the
`except` handler turns any raised error into the default cap 5000. -/
def detect_request_limit (o : ProbeOutcome) : ℕ :=
  match detect_request_limit_try o with
  | Except.ok n => n
  | Except.error _ => 5000

/-- `TushareAPI.get_api_info` (client.py lines 386-432).  The network-touching
probes `_detect_api_limits` (cap and rate, which also persists via
`save_api_limits`) and `_detect_request_limit` are passed in as oracles
`detect` and `detectReq`; `ts` is the `last_updated` timestamp written on a
save.  Returns the `ApiInfo`, the successor state, and whether any probe
request went out through the transport on this call.  (The call-history /
sleeping bookkeeping of lines 417-420 touches neither the cache, the store,
nor the returned limits and is elided here; the rate limiter itself is
modelled separately below.) -/
def get_api_info (enableRL : Bool) (detect : String → ℕ × ℕ)
    (detectReq : String → ℕ) (ts : ℕ) (s : ClientSt) (name : String) :
    ApiInfo × ClientSt × Bool :=
  match lookupA s.infoCache name with
  | some info => (info, s, false)
  | none =>
    if enableRL = false then
      match lookupA s.store name with
      | none =>
          let lpr := detectReq name
          let info := ApiInfo.mk lpr 0
          (info, ClientSt.mk (s.infoCache ++ [(name, info)])
            (save_api_limits s.store name lpr 0 ts), true)
      | some r =>
          let lpr := if r.limit_per_request ≠ 0 then r.limit_per_request else 0
          let info := ApiInfo.mk lpr 0
          (info, ClientSt.mk (s.infoCache ++ [(name, info)]) s.store, false)
    else
      match lookupA s.store name with
      | none =>
          let lr := detect name
          let info := ApiInfo.mk lr.1 lr.2
          (info, ClientSt.mk (s.infoCache ++ [(name, info)])
            (save_api_limits s.store name lr.1 lr.2 ts), true)
      | some r =>
          let info := ApiInfo.mk r.limit_per_request r.rate_limit
          (info, ClientSt.mk (s.infoCache ++ [(name, info)]) s.store, false)

/-- What the transport produces for one attempt inside `_make_request`:
either `urlopen`/decoding raised (a transport-level error with the given
text), or a decoded response with application status `code`, message and
`data` payload. -/
inductive TResp where
  | transport (msg : String)
  | app (code : Int) (msg : String) (data : PageData)
deriving DecidableEq

/-- `TushareAPI._should_retry` (client.py lines 509-519). -/
def should_retry (code : Int) : Bool :=
  code = -1 || code = 40203 || code = 500 || code = 503

/-- The message of the exception raised when the retry budget is exhausted:
`f"Request failed after {max_retries} retries: {e}"`. -/
def finalText (maxRetries : ℕ) (e : String) : String :=
  "Request failed after " ++ toString maxRetries ++ " retries: " ++ e

/-- Message for the (unreachable in our scenarios) case where the response
trace is exhausted while the code would issue another request. -/
def traceExhausted : String := "trace exhausted"

/-- `TushareAPI._make_request` (client.py lines 471-507).  `resps` is the
trace of transport outcomes, one per request actually issued; the function
returns the Python result (returned data or raised exception text) together
with the unconsumed tail of the trace.  The control flow mirrors the source
faithfully, including the fact that the `raise Exception(error_msg)` for a
non-retryable application error sits *inside* the `try:` block and is hence
caught by the blanket `except`, and that the recursive call made for a
retryable application error also sits inside the `try:` block, so its
failure is caught and retried once more by the same frame. -/
def make_request (mR : ℕ) (rc : ℕ) (resps : List TResp) :
    Except String PageData × List TResp :=
  match resps with
  | [] => (Except.error traceExhausted, [])
  | r :: rest =>
    match r with
    | TResp.transport msg =>
        if h : rc < mR then make_request mR (rc + 1) rest
        else (Except.error (finalText mR msg), rest)
    | TResp.app code msg d =>
        if code = 0 then (Except.ok d, rest)
        else if h : rc < mR then
          if should_retry code then
            match make_request mR (rc + 1) rest with
            | (Except.ok v, rest2) => (Except.ok v, rest2)
            | (Except.error _, rest2) => make_request mR (rc + 1) rest2
          else make_request mR (rc + 1) rest
        else (Except.error (finalText mR (errorText code msg)), rest)
termination_by mR - rc
decreasing_by all_goals omega

/-- Does `needle` occur at the start of `hay`? -/
def startsWithL : List Char → List Char → Bool
  | [], _ => true
  | _ :: _, [] => false
  | a :: as, b :: bs => decide (a = b) && startsWithL as bs

/-- Python's `needle in hay` substring test, on character lists. -/
def containsSubL (needle : List Char) : List Char → Bool
  | [] => startsWithL needle []
  | c :: rest => startsWithL needle (c :: rest) || containsSubL needle rest

/-- Python `str.lower()`. -/
def lowerStr (s : String) : String := String.mk (s.data.map Char.toLower)

/-- Needle of the first offset-out-of-range test: `"offset" in str(e).lower()`. -/
def offsetNeedle : String := "offset"

/-- Needle of the second offset-out-of-range test: `"超出范围" in str(e)`. -/
def rangeNeedle : String := "超出范围"

/-- The offset-out-of-range test of `fetch_page` (client.py line 693). -/
def offset_pattern (e : String) : Bool :=
  containsSubL offsetNeedle.data (lowerStr e).data || containsSubL rangeNeedle.data e.data

/-- Comma separator used to split the fields string. -/
def commaSep : String := ","

/-- The soft empty page result built by `fetch_page` on an offset-range
error: `{"fields": field_str.split(",") if field_str else [], "items": [],
"has_more": False}`. -/
def softEmptyPage (field_str : String) : PageData :=
  PageData.mk (if field_str.isEmpty then [] else field_str.splitOn commaSep) [] (some false)

/-- The `fetch_page` worker of `_get_data_concurrent` (client.py lines
686-696), applied to the outcome of its inner `_make_request` call: an
error matching the offset pattern becomes a soft empty success, any other
error is re-raised. -/
def fetch_page (field_str : String) (r : Except String PageData) :
    Except String PageData :=
  match r with
  | Except.ok d => Except.ok d
  | Except.error e =>
      if offset_pattern e then Except.ok (softEmptyPage field_str)
      else Except.error e

/-- `max_empty_results` (client.py line 703). -/
def maxEmptyResults : ℕ := 2

/-- The loop state of `_get_data_concurrent`: accumulated rows, the field
list captured from the first page with a non-empty field list, and the
consecutive-empty-results counter. -/
structure CState where
  allData : List Row
  fields : Option (List String)
  emptyCount : ℕ
deriving DecidableEq

/-- Initial loop state of `_get_data_concurrent`. -/
def initCState : CState := CState.mk [] none 0

/-- The per-result bookkeeping of `_get_data_concurrent`'s inner loop
(client.py lines 724-739): capture fields from the first non-empty field
list, count consecutive empty pages (resetting on a non-empty page, whose
rows are appended), and force the counter to `max_empty_results` on an
explicit `has_more == False`. -/
def processResult (s : CState) (d : PageData) : CState :=
  let fl := if s.fields.isNone && !d.fields.isEmpty then some d.fields else s.fields
  let cnt := if d.items.isEmpty then s.emptyCount + 1 else 0
  let ad := if d.items.isEmpty then s.allData else s.allData ++ d.items
  let cnt2 := match d.hasMore with
    | some false => maxEmptyResults
    | _ => cnt
  CState.mk ad fl cnt2

/-- Processing of one submitted batch (client.py lines 719-743): each
future's result goes through `fetch_page`'s conversion; a surviving error
re-raises and aborts.  The list holds the batch's page outcomes in the
order `concurrent.futures.as_completed` yields them. -/
def processBatch (field_str : String) (s : CState) :
    List (Except String PageData) → Except String CState
  | [] => Except.ok s
  | r :: rest =>
      match fetch_page field_str r with
      | Except.error e => Except.error e
      | Except.ok d => processBatch field_str (processResult s d) rest

/-- The batch-submission loop of `_get_data_concurrent` (client.py lines
706-743): before submitting a batch the consecutive-empty counter is
checked, and a raised page error stops everything.  Its input is the page
outcomes of `sorted_params`, grouped into the slices
`sorted_params[i:i+batch_size]` the loop submits.  Returns the final
outcome and the number of batches actually submitted. -/
def runBatches (field_str : String) (s : CState) :
    List (List (Except String PageData)) → Except String CState × ℕ
  | [] => (Except.ok s, 0)
  | b :: rest =>
      if maxEmptyResults ≤ s.emptyCount then (Except.ok s, 0)
      else
        match processBatch field_str s b with
        | Except.error e => (Except.error e, 1)
        | Except.ok s2 =>
            let r := runBatches field_str s2 rest
            (r.1, r.2 + 1)

/-- `TushareAPI._get_data_concurrent` (client.py lines 681-747).  The
returned value is `Except.error e` when the fetch raises, and otherwise
`Except.ok v` where `v` is what the Python function returns: an empty
DataFrame when no field list was ever captured (`if not fields:`), and —
because the function body ends right there — the implicit `None` when a
field list *was* captured.  `get_data` with `auto_paging=True,
concurrent=True` and a positive cached cap returns this value unchanged
(client.py line 629). -/
def get_data_concurrent (field_str : String)
    (batches : List (List (Except String PageData))) :
    Except String (Option DataFrame) :=
  match (runBatches field_str initCState batches).1 with
  | Except.error e => Except.error e
  | Except.ok s =>
      match s.fields with
      | none => Except.ok (some (DataFrame.mk [] []))
      | some fl =>
          if fl.isEmpty then Except.ok (some (DataFrame.mk [] []))
          else Except.ok none

/-- Result of the sequential paging loop: the DataFrame pieces
(`fields_list`, which stays `None` if the loop never ran, and `all_data`)
plus the `(offset, limit)` of every page request issued, in order.
`starved` marks the artificial case where the response trace ran out while
the loop would have issued another request. -/
inductive SeqOutcome where
  | done (columns : Option (List String)) (rows : List Row) (requests : List (ℕ × ℕ))
  | starved (requests : List (ℕ × ℕ))
deriving DecidableEq

/-- The issued page requests of a sequential outcome. -/
def SeqOutcome.requests : SeqOutcome → List (ℕ × ℕ)
  | SeqOutcome.done _ _ reqs => reqs
  | SeqOutcome.starved reqs => reqs

/-- Record one more issued page request in front of an outcome. -/
def SeqOutcome.push (req : ℕ × ℕ) : SeqOutcome → SeqOutcome
  | SeqOutcome.done c r reqs => SeqOutcome.done c r (req :: reqs)
  | SeqOutcome.starved reqs => SeqOutcome.starved (req :: reqs)

/-- The `remaining = user_limit - total_fetched; if remaining <= 0: break`
test of the sequential loop. -/
def limitReached (userLimit : Option ℕ) (total : ℕ) : Bool :=
  match userLimit with
  | some u => decide (u ≤ total)
  | none => false

/-- The sequential-mode paging loop of `TushareAPI.get_data` (client.py
lines 630-679) for a per-request cap `C > 0`.  `resps` is the trace of
`data` payloads the transport returns, one per issued page request.  Each
iteration: honor a reached user limit, issue the request with
`limit = min(C, remaining)`, capture `fields_list` on the first page,
append the rows, and stop when `data.get("has_more", False)` is falsy or
the user limit has been met after the page. -/
def seqLoop (C : ℕ) (userLimit : Option ℕ) (offset total : ℕ) (acc : List Row)
    (fl : Option (List String)) (resps : List PageData) : SeqOutcome :=
    if limitReached userLimit total then SeqOutcome.done fl acc []
    else
      let pageLimit := match userLimit with
        | some u => min C (u - total)
        | none => C
      match resps with
      | [] => SeqOutcome.starved []
      | d :: rest =>
          let fl2 := if fl.isNone then some d.fields else fl
          let acc2 := acc ++ d.items
          let total2 := total + d.items.length
          if d.hasMore.getD false then
            if limitReached userLimit total2 then
              SeqOutcome.done fl2 acc2 [(offset, pageLimit)]
            else
              SeqOutcome.push (offset, pageLimit)
                (seqLoop C userLimit (offset + d.items.length) total2 acc2 fl2 rest)
          else SeqOutcome.done fl2 acc2 [(offset, pageLimit)]
termination_by structural resps

/-- One sequential-mode fetch, started the way `get_data` starts it:
`offset = params.get('offset', 0)`, nothing fetched yet. -/
def seqFetch (C : ℕ) (userLimit : Option ℕ) (offset0 : ℕ)
    (resps : List PageData) : SeqOutcome :=
  seqLoop C userLimit offset0 0 [] none resps

/-- State of the sliding-window rate limiter for one endpoint: its call
history `_api_call_history[api_name]` and the current wall clock (the last
value `time.time()` returned).  Timestamps are rationals. -/
structure RLState where
  hist : List ℚ
  clock : ℚ
deriving DecidableEq

/-- The pruning step of `_respect_rate_limit` (client.py lines 545-546):
keep exactly the timestamps with `now - t < 60`. -/
def pruneHist (now : ℚ) (hist : List ℚ) : List ℚ :=
  hist.filter (fun t => decide (now - t < 60))

/-- `TushareAPI._respect_rate_limit` (client.py lines 521-561) for an
endpoint whose cached `rate_limit` is `R`.  The environment supplies
`d ≥ 0`, the time elapsed since the previous event, so the call starts at
`now = clock + d`.  With `R = 0` the function returns immediately.
Otherwise it prunes the history; if the pruned window is full it sleeps
`wait = 60 - (now - oldest)` seconds (modelled as an exact sleep) and
re-reads the clock; finally it records the current time.  Returns the new
state and the recorded admission time, if any. -/
def respect_rate_limit (R : ℕ) (s : RLState) (d : ℚ) : RLState × Option ℚ :=
  let now := s.clock + d
  if R = 0 then (RLState.mk s.hist now, none)
  else
    let pruned := pruneHist now s.hist
    if R ≤ pruned.length then
      match pruned with
      | [] => (RLState.mk (pruned ++ [now]) now, some now)
      | x :: xs =>
          let oldest := xs.foldl min x
          let wait := 60 - (now - oldest)
          let now2 := if 0 < wait then now + wait else now
          (RLState.mk (pruned ++ [now2]) now2, some now2)
    else (RLState.mk (pruned ++ [now]) now, some now)

/-- A sequence of `_respect_rate_limit` calls against one endpoint, with
the given inter-arrival delays; returns the final state and the recorded
admission times, in order. -/
def respectRun (R : ℕ) (s : RLState) : List ℚ → RLState × List ℚ
  | [] => (s, [])
  | d :: ds =>
      let p := respect_rate_limit R s d
      let q := respectRun R p.1 ds
      (q.1, p.2.toList ++ q.2)

/-- The trailing 60-second window ending at `T`: membership test
`T - 60 < t ∧ t ≤ T`. -/
def inWindow (T t : ℚ) : Bool :=
  decide (T - 60 < t) && decide (t ≤ T)

/-! Helper lemmas. -/

/-- Filtering out the entries of key `a` does not change the first-match
lookup of any other key `b`. -/
theorem lookupA_filter_ne {α : Type} (l : List (String × α)) (a b : String)
    (hab : b ≠ a) :
    lookupA (l.filter (fun p => !decide (p.1 = a))) b = lookupA l b := by
  induction l with
  | nil => rfl
  | cons p t ih =>
    have hba : a ≠ b := fun h => hab h.symm
    by_cases hpa : p.1 = a
    · have hb : ¬p.1 = b := fun h => hab (h ▸ hpa)
      simpa [lookupA, List.filter_cons, hpa, List.find?_cons, hb, hab, hba] using ih
    · by_cases hpb : p.1 = b
      · simp [lookupA, List.filter_cons, hpa, List.find?_cons, hpb, hab, hba]
      · simpa [lookupA, List.filter_cons, hpa, List.find?_cons, hpb, hab, hba] using ih

/-- Sample endpoint names and records used by concrete witnesses. -/
def apiA : String := "daily"

/-- A second, distinct sample endpoint name. -/
def apiB : String := "stock_basic"

/-- A sample durable record for `apiA`. -/
def recA : StoreRec := StoreRec.mk 6000 500 1

/-- A sample durable record for `apiB`. -/
def recB : StoreRec := StoreRec.mk 0 200 2

/-- A sample cache entry for `apiB`. -/
def infoB : ApiInfo := ApiInfo.mk 0 200

/-- A sample client state holding records for both endpoints. -/
def stW : ClientSt := ClientSt.mk [(apiB, infoB)] [(apiA, recA), (apiB, recB)]

/-- A sample non-empty token. -/
def tokDemo : String := "demo_token"

/-! Claim theorems. -/

/-- C9: constructing the client without a credential fails fast.  When the
token argument is absent or falsy and the environment variable is unset,
`__init__` raises `ValueError` (so no client is created); when either
source supplies a (non-empty) token, construction succeeds with exactly
that token stored. -/
theorem init_token_validation :
    (∀ tokenArg envTok : Option String, truthyStr tokenArg = false → envTok = none →
      initToken tokenArg envTok = Except.error tokenErrMsg)
    ∧ (∀ (s : String) (envTok : Option String), s.isEmpty = false →
      initToken (some s) envTok = Except.ok s)
    ∧ (∀ (tokenArg : Option String) (s : String), truthyStr tokenArg = false →
      s.isEmpty = false → initToken tokenArg (some s) = Except.ok s) := by
  refine ⟨?_, ?_, ?_⟩
  · intro tokenArg envTok h1 h2
    simp [initToken, h1, h2]
  · intro s envTok h
    simp [initToken, truthyStr, h]
  · intro tokenArg s h1 h2
    simp [initToken, h1, h2]

/-- Witness for C9: the theorem applied at concrete inputs — no sources at
all raises, and an explicit non-empty token is accepted and stored. -/
theorem init_token_validation_witness :
    initToken none none = Except.error tokenErrMsg
    ∧ initToken (some tokDemo) none = Except.ok tokDemo :=
  ⟨init_token_validation.1 none none (by decide) rfl,
   init_token_validation.2.1 tokDemo none (by decide)⟩

/-- C10: `clear_api_limits a` leaves every other endpoint `b` alone — both
the durable store's record for `b` and the in-memory cache entry for `b`
are looked up to exactly their previous values. -/
theorem clear_api_limits_frame :
    ∀ (s : ClientSt) (a b : String), b ≠ a →
      lookupA (clear_api_limits s a).store b = lookupA s.store b
      ∧ lookupA (clear_api_limits s a).infoCache b = lookupA s.infoCache b := by
  intro s a b hab
  constructor
  · show lookupA (remove_api_limits s.store a) b = lookupA s.store b
    unfold remove_api_limits
    by_cases h1 : s.store.isEmpty
    · simp [h1]
    · by_cases h2 : (s.store.find? (fun p => decide (p.1 = a))).isSome
      · simp [h1, h2, lookupA_filter_ne s.store a b hab]
      · simp [h1, h2]
  · exact lookupA_filter_ne s.infoCache a b hab

/-- Witness for C10: the theorem applied at a concrete two-endpoint state;
clearing `apiA` leaves `apiB`'s store row and cache entry unchanged. -/
theorem clear_api_limits_frame_witness :
    lookupA (clear_api_limits stW apiA).store apiB = lookupA stW.store apiB
    ∧ lookupA (clear_api_limits stW apiA).infoCache apiB = lookupA stW.infoCache apiB :=
  clear_api_limits_frame stW apiA apiB (by decide)

/-- C5: the per-request-cap probe never fails its caller.  It returns 0 on
an explicit `has_more=False`, the returned row count on an explicit
`has_more=True`, the row count when the flag is absent and the count is a
positive multiple of 1000, 0 when the flag is absent and the count is not,
and the default 5000 whenever the probe raises — be it a transport error or
a non-zero application status. -/
theorem detect_request_limit_cases :
    (∀ m : String, detect_request_limit (ProbeOutcome.raise m) = 5000)
    ∧ (∀ (c : Int) (m : String) (items : List Row) (hm : Option Bool), c ≠ 0 →
      detect_request_limit (ProbeOutcome.resp c m items hm) = 5000)
    ∧ (∀ (m : String) (items : List Row),
      detect_request_limit (ProbeOutcome.resp 0 m items (some false)) = 0)
    ∧ (∀ (m : String) (items : List Row),
      detect_request_limit (ProbeOutcome.resp 0 m items (some true)) = items.length)
    ∧ (∀ (m : String) (items : List Row), items.length % 1000 = 0 → 0 < items.length →
      detect_request_limit (ProbeOutcome.resp 0 m items none) = items.length)
    ∧ (∀ (m : String) (items : List Row), ¬(items.length % 1000 = 0 ∧ 0 < items.length) →
      detect_request_limit (ProbeOutcome.resp 0 m items none) = 0) := by
  refine ⟨fun m => rfl, ?_, fun m items => rfl, fun m items => rfl, ?_, ?_⟩
  · intro c m items hm hc
    simp [detect_request_limit, detect_request_limit_try, hc]
  · intro m items h1 h2
    simp [detect_request_limit, detect_request_limit_try, h1, h2]
  · intro m items h
    simp [detect_request_limit, detect_request_limit_try, h]

/-- A sample one-row items payload. -/
def itemsOne : List Row := [[tokDemo]]

/-- Witness for C5: the theorem applied at concrete inputs — a non-zero
status code yields the default 5000, and an absent flag with 1 row (not a
positive multiple of 1000) yields 0. -/
theorem detect_request_limit_cases_witness :
    detect_request_limit (ProbeOutcome.resp 40001 tokDemo itemsOne none) = 5000
    ∧ detect_request_limit (ProbeOutcome.resp 0 tokDemo itemsOne none) = 0 :=
  ⟨detect_request_limit_cases.2.1 40001 tokDemo itemsOne none (by decide),
   detect_request_limit_cases.2.2.2.2.2 tokDemo itemsOne (by decide)⟩

/-- Sample field names and cell values for concrete pages. -/
def colA : String := "ts_code"

/-- A second sample field name. -/
def colB : String := "close"

/-- A sample cell value. -/
def valX : String := "000001.SZ"

/-- A second sample cell value. -/
def valY : String := "10.5"

/-- The fields string requesting both sample columns. -/
def fieldStrAB : String := "ts_code,close"

/-- The fields string requesting one sample column. -/
def fieldStrA : String := "ts_code"

/-- A one-row page carrying both sample columns and `has_more = False`. -/
def pageOne : PageData := PageData.mk [colA, colB] [[valX, valY]] (some false)

/-- A page with no rows and no `has_more` field. -/
def pageEmpty : PageData := PageData.mk [colA] [] none

/-- A one-row page with no `has_more` field. -/
def pageFull : PageData := PageData.mk [colA] [[valX]] none

/-- C1 (code bug): a concurrent-mode fetch in which the single page
succeeds with a non-empty field list and one row.  The spec says the fetch
returns the concatenation of the fetched rows; the code collects the row
into `all_data`, but `_get_data_concurrent` only has a `return` for the
`not fields` case, so with a captured field list it falls off the end of
the function and `get_data` hands the caller `None`.  The second conjunct
shows the loop state really did hold the row and the field list just
before they were dropped. -/
theorem concurrent_fetch_returns_none_bug :
    get_data_concurrent fieldStrAB [[Except.ok pageOne]] = Except.ok none
    ∧ (runBatches fieldStrAB initCState [[Except.ok pageOne]]).1
      = Except.ok (CState.mk [[valX, valY]] (some [colA, colB]) maxEmptyResults) :=
  ⟨rfl, rfl⟩

/-- C6 (counterexample): in the first submitted batch the first two pages
processed come back empty — the claimed termination condition "two
consecutive pages returned empty row sets" is observed — but the third
page of the same batch is non-empty and resets the consecutive-empty
counter, so the loop still submits the second batch: two batches are
submitted in total. -/
theorem concurrent_stop_condition_counterexample :
    pageEmpty.items = []
    ∧ (runBatches fieldStrA initCState
        [[Except.ok pageEmpty, Except.ok pageEmpty, Except.ok pageFull],
          [Except.ok pageFull]]).2 = 2 :=
  ⟨rfl, rfl⟩

/-- C6 (amended): no batch is submitted once the consecutive-empty counter
has reached `max_empty_results` (= 2) at a batch boundary; the counter is
forced to 2 by an explicit `has_more=False`, incremented by an empty page,
and reset to 0 by a non-empty page — so the two-consecutive-empties (or
`has_more=False`) condition stops further batches only when no later page
of the same batch resets the counter before the boundary check. -/
theorem concurrent_stop_condition_amended :
    (∀ (fs : String) (s : CState) (bs : List (List (Except String PageData))),
      maxEmptyResults ≤ s.emptyCount → (runBatches fs s bs).2 = 0)
    ∧ (∀ (s : CState) (d : PageData), d.hasMore = some false →
      (processResult s d).emptyCount = maxEmptyResults)
    ∧ (∀ (s : CState) (d : PageData), d.items = [] → d.hasMore ≠ some false →
      (processResult s d).emptyCount = s.emptyCount + 1)
    ∧ (∀ (s : CState) (d : PageData), d.items ≠ [] → d.hasMore ≠ some false →
      (processResult s d).emptyCount = 0) := by
  refine ⟨?_, ?_, ?_, ?_⟩
  · intro fs s bs h
    cases bs with
    | nil => rfl
    | cons b rest => simp [runBatches, h]
  · intro s d h
    simp [processResult, h]
  · intro s d h1 h2
    match hm : d.hasMore with
    | none => simp [processResult, h1, hm]
    | some true => simp [processResult, h1, hm]
    | some false => exact absurd hm h2
  · intro s d h1 h2
    match hm : d.hasMore with
    | none => simp [processResult, h1, hm]
    | some true => simp [processResult, h1, hm]
    | some false => exact absurd hm h2

/-- Witness for the amended C6: with the counter already at 2 at a batch
boundary, a pending batch is not submitted. -/
theorem concurrent_stop_condition_amended_witness :
    (runBatches fieldStrA (CState.mk [] none 2) [[Except.ok pageFull]]).2 = 0 :=
  concurrent_stop_condition_amended.1 fieldStrA (CState.mk [] none 2)
    [[Except.ok pageFull]] (by decide)

/-- When every error in a batch matches the offset pattern, processing the
batch cannot raise. -/
theorem processBatch_ok_of_offset (fs : String) (b : List (Except String PageData)) :
    (∀ r ∈ b, ∀ msg : String, r = Except.error msg → offset_pattern msg = true) →
    ∀ s : CState, ∃ s2, processBatch fs s b = Except.ok s2 := by
  induction b with
  | nil => intro _ s; exact ⟨s, rfl⟩
  | cons r rest ih =>
    intro h s
    have hrest : ∀ r2 ∈ rest, ∀ msg : String, r2 = Except.error msg →
        offset_pattern msg = true := fun r2 hr2 msg hmsg => h r2 (by simp [hr2]) msg hmsg
    cases r with
    | ok d =>
        obtain ⟨s2, hs2⟩ := ih hrest (processResult s d)
        exact ⟨s2, by simpa [processBatch, fetch_page] using hs2⟩
    | error e =>
        have hp : offset_pattern e = true := h (Except.error e) (by simp) e rfl
        obtain ⟨s2, hs2⟩ := ih hrest (processResult s (softEmptyPage fs))
        exact ⟨s2, by simpa [processBatch, fetch_page, hp] using hs2⟩

/-- C7: a page whose executor error matches the offset-out-of-range
pattern is converted by `fetch_page` into the soft empty success
`{rows=[], hasMore=false}` and batch processing continues past it; when
every page error of a run matches the pattern the run never raises; a page
error that does not match the pattern aborts the batch at once, and the
whole concurrent fetch surfaces exactly that error. -/
theorem offset_error_soft_success :
    (∀ fs e : String, offset_pattern e = true →
      fetch_page fs (Except.error e) = Except.ok (softEmptyPage fs))
    ∧ (∀ (fs : String) (s : CState) (e : String)
      (rest : List (Except String PageData)), offset_pattern e = true →
      processBatch fs s (Except.error e :: rest)
        = processBatch fs (processResult s (softEmptyPage fs)) rest)
    ∧ (∀ (fs : String) (s : CState) (bs : List (List (Except String PageData))),
      (∀ b ∈ bs, ∀ r ∈ b, ∀ msg : String, r = Except.error msg →
        offset_pattern msg = true) →
      ∃ s2, (runBatches fs s bs).1 = Except.ok s2)
    ∧ (∀ (fs : String) (s : CState) (e : String)
      (rest : List (Except String PageData)), offset_pattern e = false →
      processBatch fs s (Except.error e :: rest) = Except.error e)
    ∧ (∀ (fs e : String) (more : List (Except String PageData))
      (moreB : List (List (Except String PageData))), offset_pattern e = false →
      get_data_concurrent fs ((Except.error e :: more) :: moreB) = Except.error e) := by
  refine ⟨?_, ?_, ?_, ?_, ?_⟩
  · intro fs e h
    simp [fetch_page, h]
  · intro fs s e rest h
    simp [processBatch, fetch_page, h]
  · intro fs s bs
    induction bs generalizing s with
    | nil => exact fun _ => ⟨s, rfl⟩
    | cons b rest ih =>
      intro h
      by_cases hc : maxEmptyResults ≤ s.emptyCount
      · exact ⟨s, by simp [runBatches, hc]⟩
      · have hb : ∀ r ∈ b, ∀ msg : String, r = Except.error msg →
            offset_pattern msg = true := fun r hr => h b (by simp) r hr
        obtain ⟨s2, hs2⟩ := processBatch_ok_of_offset fs b hb s
        have hrest : ∀ b2 ∈ rest, ∀ r ∈ b2, ∀ msg : String, r = Except.error msg →
            offset_pattern msg = true := fun b2 hb2 => h b2 (by simp [hb2])
        obtain ⟨s3, hs3⟩ := ih s2 hrest
        exact ⟨s3, by simp [runBatches, hc, hs2, hs3]⟩
  · intro fs s e rest h
    simp [processBatch, fetch_page, h]
  · intro fs e more moreB h
    simp [get_data_concurrent, runBatches, initCState, processBatch, fetch_page, h,
      maxEmptyResults]

/-- An executor error text matching the offset pattern. -/
def offMsg : String := "Error 40001: offset exceeds data range"

/-- An executor error text matching neither offset needle. -/
def boomMsg : String := "Error 2002: token invalid"

/-- Witness for C7: the theorem applied at concrete error texts — the
offset-range error becomes the soft empty page, the unrelated error aborts
the batch. -/
theorem offset_error_soft_success_witness :
    fetch_page fieldStrA (Except.error offMsg) = Except.ok (softEmptyPage fieldStrA)
    ∧ processBatch fieldStrA initCState [Except.error boomMsg] = Except.error boomMsg :=
  ⟨offset_error_soft_success.1 fieldStrA offMsg (by decide),
   offset_error_soft_success.2.2.2.1 fieldStrA initCState boomMsg [] (by decide)⟩

/-- A page holding two rows (a full cap's worth when `C = 2`) and no
`has_more` field. -/
def pageTwo : PageData := PageData.mk [colA] [[valX], [valY]] none

/-- C2 (counterexample): sequential mode with cap `C = 2`, no user limit.
The first page returns exactly `C = 2` rows and carries no `hasMore`
field; the claim says continuation is then inferred from the row count, so
a second page would be fetched — but `data.get("has_more", False)` treats
the absent field as `False` and the loop stops after a single request,
never touching the second available page. -/
theorem seq_paging_absent_hasmore_counterexample :
    pageTwo.items.length = 2 ∧ pageTwo.hasMore = none
    ∧ seqFetch 2 none 0 [pageTwo, pageFull]
      = SeqOutcome.done (some [colA]) [[valX], [valY]] [(0, 2)] :=
  ⟨rfl, rfl, rfl⟩

/-- Pushing a request onto a sequential outcome prepends it to the request
list. -/
theorem SeqOutcome.requests_push (r : ℕ × ℕ) (o : SeqOutcome) :
    (SeqOutcome.push r o).requests = r :: o.requests := by
  cases o <;> rfl

/-- A sequential loop entered with the user limit unreached and at least
one response available issues at least one page request. -/
theorem seqLoop_issues (C : ℕ) (uL : Option ℕ) (off tot : ℕ) (acc : List Row)
    (fl : Option (List String)) (d : PageData) (rest : List PageData)
    (h : limitReached uL tot = false) :
    1 ≤ (seqLoop C uL off tot acc fl (d :: rest)).requests.length := by
  unfold seqLoop
  simp only [h, Bool.false_eq_true, if_false]
  by_cases hm : d.hasMore.getD false
  · simp only [hm, if_true]
    by_cases hl : limitReached uL (tot + d.items.length)
    · simp [hl, SeqOutcome.requests]
    · simp [hl, SeqOutcome.requests_push]
  · simp [hm, SeqOutcome.requests]

/-- C2 (amended): with the user limit unreached on entry and further
responses available, the sequential loop stops after exactly this one page
iff the page's `hasMore` — with absence defaulting to false, as
`data.get("has_more", False)` does — is false, or the user-supplied total
limit has been reached by the page; in particular a page with a full cap's
worth of rows but no `hasMore` field still terminates the loop. -/
theorem seq_paging_termination_amended :
    ∀ (C : ℕ) (uL : Option ℕ) (off tot : ℕ) (acc : List Row)
      (fl : Option (List String)) (d : PageData) (rest : List PageData),
      limitReached uL tot = false → rest ≠ [] →
      ((seqLoop C uL off tot acc fl (d :: rest)).requests.length = 1
        ↔ (d.hasMore.getD false = false
          ∨ limitReached uL (tot + d.items.length) = true)) := by
  intro C uL off tot acc fl d rest h hrest
  unfold seqLoop
  simp only [h, Bool.false_eq_true, if_false]
  by_cases hm : d.hasMore.getD false
  · simp only [hm, if_true]
    by_cases hl : limitReached uL (tot + d.items.length)
    · simp [hl, SeqOutcome.requests, hm]
    · obtain ⟨d2, rest2, rfl⟩ : ∃ d2 rest2, rest = d2 :: rest2 := by
        cases rest with
        | nil => exact absurd rfl hrest
        | cons d2 rest2 => exact ⟨d2, rest2, rfl⟩
      have hge := seqLoop_issues C uL (off + d.items.length)
        (tot + d.items.length) (acc ++ d.items)
        (if fl.isNone then some d.fields else fl) d2 rest2
        (by simpa using hl)
      rw [if_neg hl]
      simp only [SeqOutcome.requests_push, List.length_cons]
      constructor
      · intro hlen
        exact absurd hlen (by omega)
      · intro hc
        rcases hc with hc | hc
        · exact absurd hc (by simp)
        · exact absurd hc hl
  · simp [hm, SeqOutcome.requests]

/-- Witness for the amended C2: a full-cap page (2 rows, cap 2) with no
`hasMore` field, with a user limit of 10 not yet reached and another
response available, issues exactly one request — the left side of the
equivalence holds because the right side's first disjunct does. -/
theorem seq_paging_termination_amended_witness :
    (seqLoop 2 (some 10) 0 0 [] none [pageTwo, pageFull]).requests.length = 1
      ↔ (pageTwo.hasMore.getD false = false
        ∨ limitReached (some 10) (0 + pageTwo.items.length) = true) :=
  seq_paging_termination_amended 2 (some 10) 0 0 [] none pageTwo [pageFull]
    (by decide) (by decide)

/-- An all-columns empty payload, standing for the `data` of an irrelevant
response. -/
def dumPage : PageData := PageData.mk [] [] none

/-- A message of the non-retryable application error used below. -/
def badParamMsg : String := "invalid parameter"

/-- C3 (code bug): the first response carries application status 40001,
which is outside `_should_retry`'s retryable set {-1, 40203, 500, 503} —
per the spec the executor must fail immediately with the final error text.
Instead, because `raise Exception(error_msg)` sits inside the `try:`
block, the blanket `except` catches it and retries: the second transport
response is consumed and its payload is returned successfully. -/
theorem nonretryable_error_retried_bug :
    make_request 3 0 [TResp.app 40001 badParamMsg dumPage, TResp.app 0 tokDemo pageOne]
      = (Except.ok pageOne, [])
    ∧ should_retry 40001 = false := by
  constructor
  · simp [make_request, should_retry]
  · rfl

/-- Appending a fresh entry for a key not yet present makes lookup of the
key find exactly that entry. -/
theorem lookupA_append_self {α : Type} (l : List (String × α)) (k : String) (v : α)
    (h : lookupA l k = none) : lookupA (l ++ [(k, v)]) k = some v := by
  induction l with
  | nil => simp [lookupA]
  | cons p t ih =>
    by_cases hp : p.1 = k
    · exact absurd h (by simp [lookupA, List.find?_cons, hp])
    · have ht : lookupA t k = none := by
        simpa [lookupA, List.find?_cons, hp] using h
      simpa [lookupA, List.find?_cons, hp] using ih ht

/-- C8: `get_api_info` is idempotent.  Whatever the first call did (cache
hit, durable-store hit, or fresh probe), a second call for the same
endpoint with no intervening clear returns the value-identical limits,
issues no probe request through the transport, and leaves the state
untouched. -/
theorem get_api_info_idempotent :
    ∀ (eRL : Bool) (detect : String → ℕ × ℕ) (dReq : String → ℕ)
      (ts1 ts2 : ℕ) (s : ClientSt) (name : String),
      (get_api_info eRL detect dReq ts2
          (get_api_info eRL detect dReq ts1 s name).2.1 name).1
        = (get_api_info eRL detect dReq ts1 s name).1
      ∧ (get_api_info eRL detect dReq ts2
          (get_api_info eRL detect dReq ts1 s name).2.1 name).2.2 = false
      ∧ (get_api_info eRL detect dReq ts2
          (get_api_info eRL detect dReq ts1 s name).2.1 name).2.1
        = (get_api_info eRL detect dReq ts1 s name).2.1 := by
  intro eRL detect dReq ts1 ts2 s name
  rcases hc : lookupA s.infoCache name with _ | info
  · cases eRL with
    | false =>
      rcases hs : lookupA s.store name with _ | r
      · have hap := lookupA_append_self s.infoCache name
          (ApiInfo.mk (dReq name) 0) hc
        simp [get_api_info, hc, hs, hap]
      · have hap := lookupA_append_self s.infoCache name
          (ApiInfo.mk (if r.limit_per_request = 0 then 0 else r.limit_per_request) 0) hc
        simp [get_api_info, hc, hs, hap]
    | true =>
      rcases hs : lookupA s.store name with _ | r
      · have hap := lookupA_append_self s.infoCache name
          (ApiInfo.mk (detect name).1 (detect name).2) hc
        simp [get_api_info, hc, hs, hap]
      · have hap := lookupA_append_self s.infoCache name
          (ApiInfo.mk r.limit_per_request r.rate_limit) hc
        simp [get_api_info, hc, hs, hap]
  · simp [get_api_info, hc]

/-- Membership in the window, unfolded. -/
theorem inWindow_iff (T t : ℚ) : inWindow T t = true ↔ (T - 60 < t ∧ t ≤ T) := by
  simp [inWindow]

/-- Membership in the pruned history, unfolded. -/
theorem mem_pruneHist (now t : ℚ) (hist : List ℚ) :
    t ∈ pruneHist now hist ↔ (t ∈ hist ∧ now - t < 60) := by
  simp [pruneHist, List.mem_filter]

/-- Counting inside a filter whose predicate is implied by the counted one
changes nothing. -/
theorem countP_filter_imp (p q : ℚ → Bool) (h : ∀ x, p x = true → q x = true)
    (l : List ℚ) : (l.filter q).countP p = l.countP p := by
  induction l with
  | nil => rfl
  | cons a l ih =>
    cases hq : q a with
    | true => simp [List.filter_cons, hq, List.countP_cons, ih]
    | false =>
      have hp : p a = false := by
        cases hpa : p a with
        | false => rfl
        | true => exact absurd (h a hpa) (by simp [hq])
      simp [List.filter_cons, hq, List.countP_cons, hp, ih]

/-- A count and the count of the complementary predicate add up to the
length. -/
theorem countP_split (q : ℚ → Bool) (l : List ℚ) :
    l.countP q + l.countP (fun y => !(q y)) = l.length := by
  induction l with
  | nil => rfl
  | cons a l ih =>
    cases hq : q a <;>
      simp [List.countP_cons, hq, List.length_cons] <;> omega

/-- Python's `min` over a nonempty list, as a fold, picks an element. -/
theorem foldlMin_mem (xs : List ℚ) (x : ℚ) : xs.foldl min x ∈ x :: xs := by
  induction xs generalizing x with
  | nil => simp
  | cons y ys ih =>
    rw [List.foldl_cons]
    rcases List.mem_cons.mp (ih (min x y)) with h1 | h1
    · rcases min_choice x y with hm | hm
      · rw [h1, hm]
        exact List.mem_cons_self x (y :: ys)
      · rw [h1, hm]
        exact List.mem_cons_of_mem x (List.mem_cons_self y ys)
    · exact List.mem_cons_of_mem x (List.mem_cons_of_mem y h1)

/-- Invariant carried through a run of `_respect_rate_limit` calls:
`s` is the limiter state, `adm` the admission times recorded so far.
All history and admission times lie in the past; the history agrees with
the admissions on every predicate confined to the open trailing minute;
and every trailing 60-second window holds at most `R` admissions. -/
def RLInv (R : ℕ) (s : RLState) (adm : List ℚ) : Prop :=
  (∀ t ∈ s.hist, t ≤ s.clock)
  ∧ (∀ t ∈ adm, t ≤ s.clock)
  ∧ (∀ p : ℚ → Bool, (∀ x : ℚ, p x = true → s.clock - x < 60) →
      adm.countP p = s.hist.countP p)
  ∧ (∀ T : ℚ, adm.countP (inWindow T) ≤ R)

/-- The `rate_limit == 0` branch of `_respect_rate_limit`: return at once,
recording nothing. -/
theorem respect_step_zero (s : RLState) (d : ℚ) :
    respect_rate_limit 0 s d = (RLState.mk s.hist (s.clock + d), none) := by
  simp [respect_rate_limit]

/-- The branch of `_respect_rate_limit` in which the pruned window is not
full: record `now` immediately. -/
theorem respect_step_open (R : ℕ) (s : RLState) (d : ℚ) (hR : R ≠ 0)
    (hlt : (pruneHist (s.clock + d) s.hist).length < R) :
    respect_rate_limit R s d
      = (RLState.mk (pruneHist (s.clock + d) s.hist ++ [s.clock + d]) (s.clock + d),
        some (s.clock + d)) := by
  unfold respect_rate_limit
  simp only [if_neg hR, if_neg (not_le.mpr hlt)]

/-- The branch of `_respect_rate_limit` in which the pruned window is full:
sleep `60 - (now - oldest)` seconds, then record the new time. -/
theorem respect_step_full (R : ℕ) (s : RLState) (d : ℚ) (hR : R ≠ 0)
    (x : ℚ) (xs : List ℚ) (hpr : pruneHist (s.clock + d) s.hist = x :: xs)
    (hfull : R ≤ (x :: xs).length)
    (hwp : 0 < 60 - (s.clock + d - xs.foldl min x)) :
    respect_rate_limit R s d
      = (RLState.mk ((x :: xs) ++ [s.clock + d + (60 - (s.clock + d - xs.foldl min x))])
          (s.clock + d + (60 - (s.clock + d - xs.foldl min x))),
        some (s.clock + d + (60 - (s.clock + d - xs.foldl min x)))) := by
  unfold respect_rate_limit
  simp only [if_neg hR, hpr, if_pos hfull, if_pos hwp]

/-- One `_respect_rate_limit` call preserves the invariant. -/
theorem respect_preserves (R : ℕ) (s : RLState) (adm : List ℚ) (d : ℚ)
    (hd : 0 ≤ d) (hI : RLInv R s adm) :
    RLInv R (respect_rate_limit R s d).1
      (adm ++ (respect_rate_limit R s d).2.toList) := by
  unfold RLInv at hI ⊢
  obtain ⟨I1, I2, I3, I4⟩ := hI
  by_cases hR : R = 0
  · subst hR
    rw [respect_step_zero]
    refine ⟨?_, ?_, ?_, ?_⟩ <;> simp only [Option.toList_none, List.append_nil]
    · intro t ht
      have := I1 t ht
      linarith
    · intro t ht
      have := I2 t ht
      linarith
    · intro p hp
      refine I3 p fun x hx => ?_
      have := hp x hx
      linarith
    · exact I4
  · have hRpos : 1 ≤ R := Nat.one_le_iff_ne_zero.mpr hR
    have hnow : s.clock ≤ s.clock + d := by linarith
    have hpred : ∀ x ∈ s.hist,
        inWindow (s.clock + d) x = true ↔ decide (s.clock + d - x < 60) = true := by
      intro x hx
      have hxc := I1 x hx
      simp only [inWindow_iff, decide_eq_true_eq]
      constructor
      · intro hw
        linarith [hw.1]
      · intro hw
        exact ⟨by linarith, by linarith⟩
    have hkey : adm.countP (inWindow (s.clock + d))
        = (pruneHist (s.clock + d) s.hist).length := by
      have e1 : adm.countP (inWindow (s.clock + d))
          = s.hist.countP (inWindow (s.clock + d)) := by
        refine I3 _ fun x hx => ?_
        rw [inWindow_iff] at hx
        linarith [hx.1]
      have e2 : s.hist.countP (inWindow (s.clock + d))
          = s.hist.countP (fun t => decide (s.clock + d - t < 60)) := by
        refine Nat.le_antisymm ?_ ?_
        · exact List.countP_mono_left fun x hx hw => (hpred x hx).mp hw
        · exact List.countP_mono_left fun x hx hw => (hpred x hx).mpr hw
      rw [e1, e2, pruneHist, ← List.countP_eq_length_filter]
    have hplen : (pruneHist (s.clock + d) s.hist).length ≤ R := by
      rw [← hkey]
      exact I4 (s.clock + d)
    by_cases hfull : R ≤ (pruneHist (s.clock + d) s.hist).length
    · -- window full: sleep to oldest + 60, then record
      rcases hpr : pruneHist (s.clock + d) s.hist with _ | ⟨x, xs⟩
      · rw [hpr] at hfull
        simp only [List.length_nil] at hfull
        omega
      · have holdmem : xs.foldl min x ∈ pruneHist (s.clock + d) s.hist := by
          rw [hpr]
          exact foldlMin_mem xs x
        obtain ⟨holdh, holdw⟩ :=
          (mem_pruneHist (s.clock + d) (xs.foldl min x) s.hist).mp holdmem
        have holdc : xs.foldl min x ≤ s.clock := I1 _ holdh
        have hwp : (0 : ℚ) < 60 - (s.clock + d - xs.foldl min x) := by linarith
        rw [respect_step_full R s d hR x xs hpr (hpr ▸ hfull) hwp]
        simp only [Option.toList_some]
        have hmemxs : ∀ t ∈ x :: xs, t ∈ s.hist ∧ s.clock + d - t < 60 := by
          intro t ht
          exact (mem_pruneHist (s.clock + d) t s.hist).mp (hpr ▸ ht)
        have hnow2 : s.clock + d ≤ s.clock + d + (60 - (s.clock + d - xs.foldl min x)) := by
          linarith
        refine ⟨?_, ?_, ?_, ?_⟩
        · intro t ht
          rcases List.mem_append.mp ht with h | h
          · have := I1 t (hmemxs t h).1
            linarith
          · simp only [List.mem_singleton] at h
            subst h
            linarith
        · intro t ht
          rcases List.mem_append.mp ht with h | h
          · have := I2 t h
            linarith
          · simp only [List.mem_singleton] at h
            subst h
            linarith
        · intro p hp
          rw [List.countP_append, List.countP_append]
          have h2 : (x :: xs).countP p = s.hist.countP p := by
            rw [← hpr, pruneHist]
            exact countP_filter_imp p _ (fun y hy => by
              have := hp y hy
              simp only [decide_eq_true_eq]
              linarith) s.hist
          have h3 : adm.countP p = s.hist.countP p := by
            refine I3 p fun y hy => ?_
            have := hp y hy
            linarith
          rw [h2, h3]
        · intro T
          rw [List.countP_append, List.countP_singleton]
          cases hw : inWindow T (s.clock + d + (60 - (s.clock + d - xs.foldl min x))) with
          | false =>
            simp only [hw, Bool.false_eq_true, if_false, Nat.add_zero]
            exact I4 T
          | true =>
            obtain ⟨hT1, hT2⟩ := (inWindow_iff _ _).mp hw
            have step1 : adm.countP (inWindow T)
                ≤ adm.countP (fun y => inWindow (s.clock + d) y
                    && decide (xs.foldl min x < y)) := by
              refine List.countP_mono_left fun y hy hTy => ?_
              have hy2 : y ≤ s.clock := I2 y hy
              rw [inWindow_iff] at hTy
              have hyo : xs.foldl min x < y := by linarith [hTy.1]
              have hyn : y ≤ s.clock + d := by linarith
              have hyw : s.clock + d - 60 < y := by linarith
              simp only [Bool.and_eq_true, inWindow_iff, decide_eq_true_eq]
              exact ⟨⟨by linarith, hyn⟩, hyo⟩
            have step2 : adm.countP (fun y => inWindow (s.clock + d) y
                  && decide (xs.foldl min x < y))
                = s.hist.countP (fun y => inWindow (s.clock + d) y
                  && decide (xs.foldl min x < y)) := by
              refine I3 _ fun y hy => ?_
              simp only [Bool.and_eq_true, inWindow_iff, decide_eq_true_eq] at hy
              linarith [hy.1.1]
            have step3 : s.hist.countP (fun y => inWindow (s.clock + d) y
                  && decide (xs.foldl min x < y))
                = (x :: xs).countP (fun y => inWindow (s.clock + d) y
                  && decide (xs.foldl min x < y)) := by
              rw [← hpr, pruneHist]
              exact (countP_filter_imp _ _ (fun y hy => by
                simp only [Bool.and_eq_true, inWindow_iff, decide_eq_true_eq] at hy
                simp only [decide_eq_true_eq]
                linarith [hy.1.1]) s.hist).symm
            have step4 : (x :: xs).countP (fun y => inWindow (s.clock + d) y
                  && decide (xs.foldl min x < y)) ≤ (x :: xs).length - 1 := by
              have hsplit := countP_split (fun y => inWindow (s.clock + d) y
                  && decide (xs.foldl min x < y)) (x :: xs)
              have hneg : 0 < (x :: xs).countP (fun y =>
                  !(inWindow (s.clock + d) y && decide (xs.foldl min x < y))) := by
                refine List.countP_pos_iff.mpr ⟨xs.foldl min x, hpr ▸ holdmem, ?_⟩
                simp only [Bool.not_eq_true', Bool.and_eq_false_iff]
                right
                simp only [decide_eq_false_iff_not]
                exact lt_irrefl _
              omega
            have step5 : (x :: xs).length ≤ R := hpr ▸ hplen
            have hfin : adm.countP (inWindow T) ≤ R - 1 := by
              calc adm.countP (inWindow T)
                  ≤ (x :: xs).countP (fun y => inWindow (s.clock + d) y
                      && decide (xs.foldl min x < y)) := by
                    rw [← step3, ← step2]
                    exact step1
                _ ≤ (x :: xs).length - 1 := step4
                _ ≤ R - 1 := by omega
            simp only [hw, if_true]
            omega
    · -- window not full: record immediately
      have hlt : (pruneHist (s.clock + d) s.hist).length < R := not_le.mp hfull
      rw [respect_step_open R s d hR hlt]
      simp only [Option.toList_some]
      refine ⟨?_, ?_, ?_, ?_⟩
      · intro t ht
        rcases List.mem_append.mp ht with h | h
        · have := I1 t ((mem_pruneHist (s.clock + d) t s.hist).mp h).1
          linarith
        · simp only [List.mem_singleton] at h
          subst h
          exact le_refl _
      · intro t ht
        rcases List.mem_append.mp ht with h | h
        · have := I2 t h
          linarith
        · simp only [List.mem_singleton] at h
          subst h
          exact le_refl _
      · intro p hp
        rw [List.countP_append, List.countP_append]
        have h2 : (pruneHist (s.clock + d) s.hist).countP p = s.hist.countP p := by
          rw [pruneHist]
          exact countP_filter_imp p _ (fun y hy => by
            have := hp y hy
            simp only [decide_eq_true_eq]
            linarith) s.hist
        have h3 : adm.countP p = s.hist.countP p := by
          refine I3 p fun y hy => ?_
          have := hp y hy
          linarith
        rw [h2, h3]
      · intro T
        rw [List.countP_append, List.countP_singleton]
        cases hw : inWindow T (s.clock + d) with
        | false =>
          simp only [hw, Bool.false_eq_true, if_false, Nat.add_zero]
          exact I4 T
        | true =>
          obtain ⟨hT1, hT2⟩ := (inWindow_iff _ _).mp hw
          have step1 : adm.countP (inWindow T)
              ≤ adm.countP (inWindow (s.clock + d)) := by
            refine List.countP_mono_left fun y hy hTy => ?_
            have hy2 : y ≤ s.clock := I2 y hy
            rw [inWindow_iff] at hTy
            rw [inWindow_iff]
            exact ⟨by linarith [hTy.1], by linarith⟩
          have hfin : adm.countP (inWindow T) < R := by
            calc adm.countP (inWindow T) ≤ adm.countP (inWindow (s.clock + d)) := step1
              _ = (pruneHist (s.clock + d) s.hist).length := hkey
              _ < R := hlt
          simp only [hw, if_true]
          omega

/-- A run of `_respect_rate_limit` calls preserves the invariant. -/
theorem respectRun_preserves (R : ℕ) (ds : List ℚ) :
    ∀ (s : RLState) (adm : List ℚ), (∀ d ∈ ds, 0 ≤ d) → RLInv R s adm →
      RLInv R (respectRun R s ds).1 (adm ++ (respectRun R s ds).2) := by
  induction ds with
  | nil =>
    intro s adm _ hI
    simpa [respectRun] using hI
  | cons d ds ih =>
    intro s adm hd hI
    have h1 := respect_preserves R s adm d (hd d (by simp)) hI
    have h2 := ih (respect_rate_limit R s d).1
      (adm ++ (respect_rate_limit R s d).2.toList)
      (fun y hy => hd y (by simp [hy])) h1
    simpa [respectRun, List.append_assoc] using h2

/-- C4: the sliding-window limiter.  (1) Starting from an empty history,
any sequence of `_respect_rate_limit` calls against an endpoint with
cached `ratePerMinute = R` places at most `R` admitted calls in every
trailing 60-second window; (2) each admission's pruning step retains only
timestamps with `now - t < 60`; (3) with `ratePerMinute = 0` the call
returns immediately, waiting for nothing and recording nothing. -/
theorem rate_limiter_sliding_window (R : ℕ) (c0 : ℚ) (deltas : List ℚ)
    (hd : ∀ d ∈ deltas, 0 ≤ d) :
    (∀ T : ℚ, ((respectRun R (RLState.mk [] c0) deltas).2.countP (inWindow T)) ≤ R)
    ∧ (∀ (now : ℚ) (hist : List ℚ), ∀ t ∈ pruneHist now hist, now - t < 60)
    ∧ (∀ (s : RLState) (d : ℚ),
      respect_rate_limit 0 s d = (RLState.mk s.hist (s.clock + d), none)) := by
  refine ⟨?_, ?_, ?_⟩
  · have hinv0 : RLInv R (RLState.mk [] c0) [] := by
      refine ⟨?_, ?_, ?_, ?_⟩ <;> simp [RLInv]
    have h := respectRun_preserves R deltas (RLState.mk [] c0) [] hd hinv0
    intro T
    have h4 := h.2.2.2 T
    simpa using h4
  · intro now hist t ht
    exact ((mem_pruneHist now t hist).mp ht).2
  · intro s d
    exact respect_step_zero s d

/-- Witness for C4: the theorem applied at `R = 2` with three
back-to-back calls (all delays 0); the recorded admissions in the window
ending at time 100 number at most 2. -/
theorem rate_limiter_sliding_window_witness :
    ((respectRun 2 (RLState.mk [] 0) [0, 0, 0]).2.countP (inWindow 100)) ≤ 2 :=
  (rate_limiter_sliding_window 2 0 [0, 0, 0] (by decide)).1 100

end TusharePlus
